import Mathlib

/-!
Shallow embedding of the rspack-resolver resolution engine (src/lib.rs),
path/metadata cache (src/cache.rs) and tsconfig evaluator (src/tsconfig.rs),
together with proofs about the embedded definitions.

Paths are modelled as plain strings (or as lists of path segments where the
parent-pointer structure matters).  Machine strings are ASCII in every input
considered here, so character indices and byte indices coincide; where the
source mixes the two (Rust `chars().position` against `len()`), the embedding
keeps the distinction by using `utf8ByteSize` for Rust byte lengths.
-/

/-- JSON values as consumed by the exports/imports evaluator
(`serde_json::Value`); objects keep insertion order. -/
inductive JSONValue where
  | null : JSONValue
  | bool (b : Bool) : JSONValue
  | num (n : Int) : JSONValue
  | str (s : String) : JSONValue
  | arr (xs : List JSONValue) : JSONValue
  | obj (kvs : List (String × JSONValue)) : JSONValue

/-- Modelled from the spec: `error.rs` is not under `src/`.  Error kinds follow
spec section 7 and the constructor applications visible in `src/lib.rs`. -/
inductive ResolveError where
  | NotFound (specifier : String)
  | Ignored (path : String)
  | Builtin (specifier : String)
  | MatchedAliasNotFound (specifier : String) (key : String)
  | Recursion
  | InvalidPackageConfig (pkg : String)
  | InvalidPackageConfigDirectory (pkg : String)
  | InvalidPackageTarget (target : String) (key : String) (pkg : String)
  | PackagePathNotExported (subpath : String) (pkg : String)
  | PackageImportNotDefined (specifier : String) (pkg : String)
  | InvalidModuleSpecifier (specifier : String) (pkg : String)
deriving DecidableEq, Repr

/-- Modelled from the spec: `error.rs` is not under `src/`.  Spec section 7:
"`Ignored` always propagates immediately"; `is_ignore` recognises the
`Ignored` variant. -/
def ResolveError.isIgnore : ResolveError → Bool
  | .Ignored _ => true
  | _ => false

instance exceptDecEq {ε α : Type} [DecidableEq ε] [DecidableEq α] :
    DecidableEq (Except ε α) := fun a b =>
  match a, b with
  | .ok x, .ok y =>
    if h : x = y then isTrue (by rw [h]) else isFalse (fun hc => h (Except.ok.inj hc))
  | .error x, .error y =>
    if h : x = y then isTrue (by rw [h]) else isFalse (fun hc => h (Except.error.inj hc))
  | .ok _, .error _ => isFalse (fun hc => Except.noConfusion hc)
  | .error _, .ok _ => isFalse (fun hc => Except.noConfusion hc)

/-- Rust `Ordering::is_gt`. -/
def orderingIsGt : Ordering → Bool
  | .gt => true
  | _ => false

/-- Rust byte length `str::len()`. -/
def byteLen (s : String) : Nat := s.utf8ByteSize

/-- Rust `key.chars().position(|c| c == '*')` (character index of the first
`*`). -/
def starIdx (s : String) : Option Nat := s.toList.findIdx? (· == '*')

/-- Rust `key.contains('*')`. -/
def containsStar (s : String) : Bool := s.toList.any (· == '*')

/-- Base length used by PATTERN_KEY_COMPARE: index of `*` plus one if the key
contains `*`, the key's length otherwise (`src/lib.rs` lines 1919-1924). -/
def baseLength (key : String) : Nat :=
  match starIdx key with
  | some p => p + 1
  | none => byteLen key

/-- PATTERN_KEY_COMPARE (`ResolverGeneric::pattern_key_compare`,
`src/lib.rs` lines 1910-1951).  The empty-key guard serves the caller's
sentinel initial best key. -/
def patternKeyCompare (keyA keyB : String) : Ordering :=
  if keyA.isEmpty then .gt
  else
    let baseLengthA := baseLength keyA
    let baseLengthB := baseLength keyB
    if baseLengthA > baseLengthB then .lt
    else if baseLengthB > baseLengthA then .gt
    else if containsStar keyA = false then .gt
    else if containsStar keyB = false then .lt
    else if byteLen keyA > byteLen keyB then .lt
    else if byteLen keyB > byteLen keyA then .gt
    else .eq

/-- A key containing exactly one `*` character. -/
abbrev oneStar (s : String) : Prop := s.toList.count '*' = 1

/-- Rust `Path::join` on the string model of paths. -/
def pathJoin (p s : String) : String := p ++ "/" ++ s

/-! Character-list versions of the string primitives (`starts_with`,
`ends_with`, `len`, slicing).  They agree with the byte-based Rust
operations on the ASCII inputs considered here and, unlike the built-in
`String` loops, evaluate by kernel reduction. -/

/-- Rust `str::starts_with`. -/
def strStartsWith (s p : String) : Bool := p.toList.isPrefixOf s.toList

/-- Rust `str::ends_with`. -/
def strEndsWith (s p : String) : Bool := p.toList.reverse.isPrefixOf s.toList.reverse

/-- Character count (Rust `len()` on the ASCII inputs considered). -/
def strLen (s : String) : Nat := s.toList.length

/-- Rust `str::is_empty`. -/
def strIsEmpty (s : String) : Bool := s.toList.isEmpty

/-- Drop the first `n` characters (`&s[n..]` on ASCII). -/
def strDrop (s : String) (n : Nat) : String := ⟨s.toList.drop n⟩

/-- Drop the last character (`strip_suffix` remainder on ASCII). -/
def strDropLastChar (s : String) : String := ⟨s.toList.dropLast⟩

/-- Rust `str::strip_prefix`. -/
def dropPrefixS (s p : String) : Option String :=
  if strStartsWith s p then some (strDrop s (strLen p)) else none

/-- Rust `str::trim_start_matches(SLASH_START)`: remove every leading slash.
`SLASH_START` comes from `path.rs`, which is not under `src/`; the spec
(section 4.1) says it matches `/` (and `\` only on Windows), so the Unix form
is used. -/
def trimStartSlashes (s : String) : String := ⟨s.toList.dropWhile (· == '/')⟩

/-- Rust `str::trim_start_matches('.')`. -/
def trimLeadingDots (s : String) : String := ⟨s.toList.dropWhile (· == '.')⟩

/-- Rust `str::split_once('*')`: split at the first `*`, excluding it. -/
def splitOnce (s : String) (c : Char) : Option (String × String) :=
  match s.toList.findIdx? (· == c) with
  | none => none
  | some i => some (⟨s.toList.take i⟩, ⟨s.toList.drop (i + 1)⟩)

/-- Rust byte-range slice `&s[a..b]` (character-based; ASCII inputs make the
two agree). -/
def sliceChars (s : String) (a b : Nat) : String := ⟨(s.toList.take b).drop a⟩

/-- Modelled from the spec: `path.rs` is not under `src/`.  Spec section 4.1:
`normalize` collapses `.` and `..` segments without touching the file
system.  Paths are split on `/`; a leading empty segment marks an absolute
path and is never popped. -/
def normSegs : List String → List String → List String
  | acc, [] => acc.reverse
  | acc, "." :: rest => normSegs acc rest
  | acc, ".." :: rest =>
    match acc with
    | [] => normSegs [] rest
    | "" :: t => normSegs ("" :: t) rest
    | _ :: t => normSegs t rest
  | acc, s :: rest => normSegs (s :: acc) rest

/-- Split on characters satisfying `p` (consecutive separators yield empty
segments, like Rust `str::split`). -/
def splitByPredAux (p : Char → Bool) : List Char → List Char → List String
  | [], cur => [⟨cur.reverse⟩]
  | c :: rest, cur =>
    if p c then ⟨cur.reverse⟩ :: splitByPredAux p rest []
    else splitByPredAux p rest (c :: cur)

/-- Split a string on characters satisfying `p`. -/
def splitByPred (p : Char → Bool) (s : String) : List String :=
  splitByPredAux p s.toList []

/-- Join segments with `/`. -/
def joinSlash : List String → String
  | [] => ""
  | [s] => s
  | s :: rest => s ++ "/" ++ joinSlash rest

/-- Modelled from the spec: `path.rs` is not under `src/`; spec section 4.1
`normalize`. -/
def normalizePath (p : String) : String :=
  joinSlash (normSegs [] (splitByPred (· == '/') p))

/-- Modelled from the spec: `path.rs` is not under `src/`; spec section 4.1
`normalize_with(base, p)` resolves `p` against `base` and normalizes. -/
def normalizeWith (base p : String) : String := normalizePath (base ++ "/" ++ p)

/-- ASCII lowercasing (Rust `eq_ignore_ascii_case` support). -/
def lowerAscii (s : String) : String := ⟨s.toList.map Char.toLower⟩

/-- Modelled from the spec: `path.rs` is not under `src/`.  Spec section 4.1:
a target is invalid if, after splitting on `/` or `\`, any segment after the
first `.` is one of `""`, `.`, `..`, or `node_modules` (case-insensitive). -/
def isInvalidExportsTarget (s : String) : Bool :=
  ((splitByPred (fun c => c == '/' || c == '\\') s).drop 1).any fun seg =>
    seg == "" || seg == "." || seg == ".." || lowerAscii seg == "node_modules"

/-! ### Best-wildcard-key selection in PACKAGE_IMPORTS_EXPORTS_RESOLVE
(`src/lib.rs` lines 1656-1693). -/

/-- The loop state `(best_target, best_match, best_key)`. -/
structure BestState where
  bestTarget : Option JSONValue
  bestMatch : String
  bestKey : String

/-- One iteration of the expansion-key loop of
`package_imports_exports_resolve` (`src/lib.rs` lines 1662-1693). -/
def selectStep (matchKey : String) (st : BestState) (kv : String × JSONValue) : BestState :=
  let expansionKey := kv.1
  if strStartsWith expansionKey "./" || strStartsWith expansionKey "#" then
    match splitOnce expansionKey '*' with
    | some (patternBase, patternTrailer) =>
      if (strStartsWith matchKey patternBase
          && !(containsStar patternTrailer)
          && (strIsEmpty patternTrailer
              || (decide (byteLen matchKey ≥ byteLen expansionKey)
                  && strEndsWith matchKey patternTrailer))
          && orderingIsGt (patternKeyCompare st.bestKey expansionKey)) then
        { bestTarget := some kv.2
          bestMatch := sliceChars matchKey (strLen patternBase)
            (strLen matchKey - strLen patternTrailer)
          bestKey := expansionKey }
      else st
    | none =>
      if (strEndsWith expansionKey "/"
          && strStartsWith matchKey expansionKey
          && orderingIsGt (patternKeyCompare st.bestKey expansionKey)) then
        { bestTarget := some kv.2
          bestMatch := strDrop matchKey (strLen expansionKey)
          bestKey := expansionKey }
      else st
  else st

/-- The state before the loop: `best_target = None`, `best_match = ""`,
`best_key = ""`. -/
def initialBest : BestState := ⟨none, "", ""⟩

/-- The whole expansion-key loop. -/
def selectBest (matchKey : String) (matchObj : List (String × JSONValue)) : BestState :=
  matchObj.foldl (selectStep matchKey) initialBest

/-! ### PACKAGE_TARGET_RESOLVE (`src/lib.rs` lines 1712-1872)
The recursive re-resolution of bare targets (`package_resolve`) is passed in
as an oracle `pkgResolve packageUrl target`. -/

/-- Rust `str::replace('*', pm)`: replace every `*`. -/
def replaceStar (s pm : String) : String :=
  ⟨s.toList.foldr (fun c acc => if c = '*' then pm.toList ++ acc else c :: acc) []⟩

/-- `normalize_string_target` (`src/lib.rs` lines 1725-1749). -/
def normalizeStringTarget (targetKey target : String) (patternMatch : Option String)
    (packageUrl : String) : Except ResolveError String :=
  match patternMatch with
  | some pm =>
    if containsStar targetKey = false ∧ containsStar target = false then
      if strEndsWith targetKey "/" ∧ strEndsWith target "/" then .ok (target ++ pm)
      else .error (.InvalidPackageConfigDirectory (pathJoin packageUrl "package.json"))
    else .ok (replaceStar target pm)
  | none => .ok target

/-- Rust `Result::is_err`. -/
def exceptIsErr : Except ResolveError (Option String) → Bool
  | .error _ => true
  | .ok _ => false

mutual

/-- PACKAGE_TARGET_RESOLVE (`ResolverGeneric::package_target_resolve`,
`src/lib.rs` lines 1712-1872). -/
def packageTargetResolve (pkgResolve : String → String → Except ResolveError (Option String))
    (packageUrl : String) (conditions : List String) (targetKey : String)
    (target : JSONValue) (patternMatch : Option String) (isImports : Bool) :
    Except ResolveError (Option String) :=
  match target with
  | .str t =>
    if ¬ strStartsWith t "./" then
      if ¬ isImports ∨ strStartsWith t "../" ∨ strStartsWith t "/" then
        .error (.InvalidPackageTarget t targetKey (pathJoin packageUrl "package.json"))
      else
        match normalizeStringTarget targetKey t patternMatch packageUrl with
        | .error e => .error e
        | .ok t2 => pkgResolve packageUrl t2
    else
      match normalizeStringTarget targetKey t patternMatch packageUrl with
      | .error e => .error e
      | .ok t2 =>
        if isInvalidExportsTarget t2 then
          .error (.InvalidPackageTarget t2 targetKey (pathJoin packageUrl "package.json"))
        else .ok (some (normalizeWith packageUrl t2))
  | .obj kvs =>
    packageTargetResolveObj pkgResolve packageUrl conditions targetKey kvs patternMatch isImports
  | .arr ts =>
    if ts.isEmpty then
      .error (.PackagePathNotExported (patternMatch.getD ".") (pathJoin packageUrl "package.json"))
    else
      packageTargetResolveArr pkgResolve packageUrl conditions targetKey
        ts.length 0 ts patternMatch isImports
  | _ => .ok none

/-- The condition-object loop of `package_target_resolve`
(`src/lib.rs` lines 1798-1826). -/
def packageTargetResolveObj (pkgResolve : String → String → Except ResolveError (Option String))
    (packageUrl : String) (conditions : List String) (targetKey : String)
    (kvs : List (String × JSONValue)) (patternMatch : Option String) (isImports : Bool) :
    Except ResolveError (Option String) :=
  match kvs with
  | [] => .ok none
  | (key, targetValue) :: rest =>
    if key = "default" ∨ conditions.contains key then
      match packageTargetResolve pkgResolve packageUrl conditions targetKey targetValue
          patternMatch isImports with
      | .error e => .error e
      | .ok (some p) => .ok (some p)
      | .ok none =>
        packageTargetResolveObj pkgResolve packageUrl conditions targetKey rest
          patternMatch isImports
    else
      packageTargetResolveObj pkgResolve packageUrl conditions targetKey rest
        patternMatch isImports

/-- The array loop of `package_target_resolve` (`src/lib.rs` lines
1837-1861): `len` is `targets.len()` of the whole array and `i` the index of
the head of `ts`.  The guard `i = len` reproduces the source's
`resolved.is_err() && i == targets.len()` verbatim. -/
def packageTargetResolveArr (pkgResolve : String → String → Except ResolveError (Option String))
    (packageUrl : String) (conditions : List String) (targetKey : String)
    (len i : Nat) (ts : List JSONValue) (patternMatch : Option String) (isImports : Bool) :
    Except ResolveError (Option String) :=
  match ts with
  | [] => .ok none
  | targetValue :: rest =>
    let resolved := packageTargetResolve pkgResolve packageUrl conditions targetKey targetValue
      patternMatch isImports
    if exceptIsErr resolved ∧ i = len then resolved
    else
      match resolved with
      | .ok (some p) => .ok (some p)
      | _ =>
        packageTargetResolveArr pkgResolve packageUrl conditions targetKey
          len (i + 1) rest patternMatch isImports

end

/-! ### PACKAGE_EXPORTS_RESOLVE / PACKAGE_IMPORTS_EXPORTS_RESOLVE
(`src/lib.rs` lines 1451-1710). -/

/-- `IndexMap::get` on the insertion-ordered object. -/
def lookupMap (kvs : List (String × JSONValue)) (k : String) : Option JSONValue :=
  (kvs.find? (fun kv => kv.1 == k)).map (·.2)

/-- PACKAGE_IMPORTS_EXPORTS_RESOLVE (`src/lib.rs` lines 1623-1710). -/
def packageImportsExportsResolve
    (pkgResolve : String → String → Except ResolveError (Option String))
    (matchKey : String) (matchObj : List (String × JSONValue)) (packageUrl : String)
    (isImports : Bool) (conditions : List String) : Except ResolveError (Option String) :=
  if strEndsWith matchKey "/" then .ok none
  else
    match (if containsStar matchKey then none else lookupMap matchObj matchKey) with
    | some target =>
      packageTargetResolve pkgResolve packageUrl conditions matchKey target none isImports
    | none =>
      let st := selectBest matchKey matchObj
      match st.bestTarget with
      | some t =>
        packageTargetResolve pkgResolve packageUrl conditions st.bestKey t
          (some st.bestMatch) isImports
      | none => .ok none

/-- The mixed-key validation loop of `package_exports_resolve`
(`src/lib.rs` lines 1462-1474), threading the `has_dot` / `without_dot`
flags. -/
def checkMixedKeys : List String → Bool → Bool → Bool
  | [], _, _ => false
  | key :: rest, hasDot, withoutDot =>
    let s := strStartsWith key "." || strStartsWith key "#"
    let hasDot2 := hasDot || s
    let withoutDot2 := withoutDot || !s
    if hasDot2 && withoutDot2 then true else checkMixedKeys rest hasDot2 withoutDot2

/-- Whether the exports value triggers the Invalid Package Configuration
error of `package_exports_resolve` step 1. -/
def mixedKeysOf : JSONValue → Bool
  | .obj map => checkMixedKeys (map.map (·.1)) false false
  | _ => false

/-- PACKAGE_EXPORTS_RESOLVE (`ResolverGeneric::package_exports_resolve`,
`src/lib.rs` lines 1451-1564).  `query` and `fragment` model
`ctx.query` / `ctx.fragment`. -/
def packageExportsResolve
    (pkgResolve : String → String → Except ResolveError (Option String))
    (packageUrl : String) (subpath : String) (exports : JSONValue)
    (conditions : List String) (query fragment : Option String) :
    Except ResolveError (Option String) :=
  if mixedKeysOf exports then
    .error (.InvalidPackageConfig (pathJoin packageUrl "package.json"))
  else if subpath = "." ∧ (query.isSome ∨ fragment.isSome) then
    .error (.PackagePathNotExported
      ("./" ++ trimLeadingDots subpath ++ query.getD "" ++ fragment.getD "")
      (pathJoin packageUrl "package.json"))
  else
    let afterMain : Except ResolveError (Option String) :=
      if subpath = "." then
        let mainExport : Option JSONValue :=
          match exports with
          | .str _ => some exports
          | .arr _ => some exports
          | .obj map =>
            match lookupMap map "." with
            | some v => some v
            | none =>
              if map.any (fun kv => strStartsWith kv.1 "./" || strStartsWith kv.1 "#") then none
              else some exports
          | _ => none
        match mainExport with
        | some me => packageTargetResolve pkgResolve packageUrl conditions "." me none false
        | none => .ok none
      else .ok none
    match afterMain with
    | .error e => .error e
    | .ok (some p) => .ok (some p)
    | .ok none =>
      match exports with
      | .obj map =>
        match packageImportsExportsResolve pkgResolve subpath map packageUrl false conditions with
        | .error e => .error e
        | .ok (some p) => .ok (some p)
        | .ok none =>
          .error (.PackagePathNotExported subpath (pathJoin packageUrl "package.json"))
      | _ => .error (.PackagePathNotExported subpath (pathJoin packageUrl "package.json"))

/-! ### Alias application (`src/lib.rs` lines 1058-1161). -/

/-- Alias values from `options.rs` (not under `src/`): a replacement path or
`Ignore`, per spec section 3. -/
inductive AliasValue where
  | path (s : String)
  | ignore
deriving DecidableEq

/-- `ResolverGeneric::strip_package_name` (`src/lib.rs` lines 1953-1957). -/
def stripPackageName (specifier packageName : String) : Option String :=
  match dropPrefixS specifier packageName with
  | some tail => if strIsEmpty tail || strStartsWith tail "/" then some tail else none
  | none => none

/-- The key-matching prelude of the `load_alias` loop (`src/lib.rs` lines
1067-1078): the matched key (with a trailing `$` stripped), or `none` when
the entry does not match. -/
def aliasKeyMatch (specifier aliasKeyRaw : String) : Option String :=
  if strEndsWith aliasKeyRaw "$" then
    let stripped := strDropLastChar aliasKeyRaw
    if stripped = specifier then some stripped else none
  else
    match stripPackageName specifier aliasKeyRaw with
    | some _ => some aliasKeyRaw
    | none => none

/-- `ResolverGeneric::load_alias_value` (`src/lib.rs` lines 1116-1161).
`isFile` models the cache probe on the normalized alias path; `require`
models the recursive engine entry; the returned `Bool` is the updated
`should_stop` flag. -/
def loadAliasValue (isFile : String → Bool)
    (require : String → String → Except ResolveError String)
    (cachedPath aliasKey aliasValue request : String) (shouldStop : Bool) :
    Except ResolveError (Option String) × Bool :=
  let strippedStartsSlash :=
    ((dropPrefixS request aliasValue).map (strStartsWith · "/")).getD false
  if request ≠ aliasValue ∧ strippedStartsSlash = false then
    let tail := strDrop request (strLen aliasKey)
    let newSpecifier? : Option String :=
      if strIsEmpty tail then some aliasValue
      else
        let aliasPath := normalizePath aliasValue
        if isFile aliasPath then none
        else
          let tail2 := trimStartSlashes tail
          if strIsEmpty tail2 then some aliasValue
          else some (normalizeWith aliasPath tail2)
    match newSpecifier? with
    | none => (.ok none, shouldStop)
    | some newSpecifier =>
      match require cachedPath newSpecifier with
      | .error (.NotFound _) => (.ok none, true)
      | .error (.MatchedAliasNotFound _ _) => (.ok none, true)
      | .ok p => (.ok (some p), true)
      | .error e => (.error e, true)
  else (.ok none, shouldStop)

/-- The value loop of `load_alias` for one matched key (`src/lib.rs` lines
1082-1105), threading `should_stop`. -/
def loadAliasValues (isFile : String → Bool)
    (require : String → String → Except ResolveError String)
    (cachedPath aliasKey specifier : String) :
    List AliasValue → Bool → Except ResolveError (Option String) × Bool
  | [], shouldStop => (.ok none, shouldStop)
  | .path v :: rest, shouldStop =>
    match loadAliasValue isFile require cachedPath aliasKey v specifier shouldStop with
    | (.ok (some p), s) => (.ok (some p), s)
    | (.ok none, s) => loadAliasValues isFile require cachedPath aliasKey specifier rest s
    | (.error e, s) => (.error e, s)
  | .ignore :: _, shouldStop =>
    (.error (.Ignored (normalizeWith cachedPath aliasKey)), shouldStop)

/-- `ResolverGeneric::load_alias` (`src/lib.rs` lines 1059-1114). -/
def loadAlias (isFile : String → Bool)
    (require : String → String → Except ResolveError String)
    (cachedPath specifier : String) :
    List (String × List AliasValue) → Except ResolveError (Option String)
  | [] => .ok none
  | (aliasKeyRaw, values) :: rest =>
    match aliasKeyMatch specifier aliasKeyRaw with
    | none => loadAlias isFile require cachedPath specifier rest
    | some aliasKey =>
      match loadAliasValues isFile require cachedPath aliasKey specifier values false with
      | (.ok (some p), _) => .ok (some p)
      | (.error e, _) => .error e
      | (.ok none, shouldStop) =>
        if shouldStop then .error (.MatchedAliasNotFound specifier aliasKey)
        else loadAlias isFile require cachedPath specifier rest

/-- The post-dispatch fallback logic of `require_without_parse`
(`src/lib.rs` lines 305-363): tsconfig paths, the alias list, the
absolute/relative/hash/bare dispatch (`primary`) and the `fallback` alias
list are each summarised by their result. -/
def requireWithoutParse (tsconfigPaths : Except ResolveError (Option String))
    (aliasResult : Except ResolveError (Option String))
    (primary : Except ResolveError String)
    (fallback : Except ResolveError (Option String)) : Except ResolveError String :=
  match tsconfigPaths with
  | .error e => .error e
  | .ok (some p) => .ok p
  | .ok none =>
    match aliasResult with
    | .error e => .error e
    | .ok (some p) => .ok p
    | .ok none =>
      match primary with
      | .ok r => .ok r
      | .error err =>
        if err.isIgnore then .error err
        else
          match fallback with
          | .error e => .error e
          | .ok (some p) => .ok p
          | .ok none => .error err

/-- `ResolverGeneric::require_core` (`src/lib.rs` lines 365-380).  The sorted
builtin list of `builtins.rs` (not under `src/`) is a parameter; its sorted
`binary_search(..).is_ok()` is membership. -/
def requireCore (builtinModules : Bool) (builtins : List String) (specifier : String) :
    Except ResolveError Unit :=
  if builtinModules then
    let startsWithNode := strStartsWith specifier "node:"
    if startsWithNode || builtins.contains specifier then
      .error (.Builtin (if startsWithNode then specifier else "node:" ++ specifier))
    else .ok ()
  else .ok ()

/-! ### Tsconfig build and template-variable substitution
(`src/tsconfig.rs` lines 241-268 and 383-396). -/

/-- `CompilerOptions` (`src/tsconfig.rs` lines 50-61). -/
structure CompilerOptionsT where
  base_url : Option String
  paths : Option (List (String × List String))
  paths_base : String

/-- `TsConfig` fields relevant to `build` (`src/tsconfig.rs` lines 24-45). -/
structure TsConfigT where
  root : Bool
  path : String
  compiler_options : CompilerOptionsT

/-- `TEMPLATE_VARIABLE` (`src/tsconfig.rs` line 22). -/
def TEMPLATE_VARIABLE : String := "${configDir}"

/-- `TsConfig::substitute_template_variable` (`src/tsconfig.rs` lines
388-396): strip a leading `${configDir}`, then an optional `/`, and join the
remainder onto the directory. -/
def substituteTemplateVariable (directory p : String) : String :=
  if strStartsWith p TEMPLATE_VARIABLE then
    let stripped := strDrop p (strLen TEMPLATE_VARIABLE)
    if strStartsWith stripped "/" then pathJoin directory (strDrop stripped 1)
    else pathJoin directory stripped
  else p

/-- `Path::parent` on the string model: drop the last `/`-separated
component. -/
def parentPath (p : String) : String :=
  match p.toList.reverse.findIdx? (· == '/') with
  | some i => ⟨p.toList.take (p.toList.length - 1 - i)⟩
  | none => ""

/-- `TsConfig::directory` (`src/tsconfig.rs` lines 275-278). -/
def TsConfigT.directory (t : TsConfigT) : String := parentPath t.path

/-- `TsConfig::build` (`src/tsconfig.rs` lines 241-268). -/
def TsConfigT.build (t : TsConfigT) : TsConfigT :=
  if t.root then
    let dir := t.directory
    { t with
      compiler_options :=
        { base_url := t.compiler_options.base_url.map (substituteTemplateVariable dir)
          paths := t.compiler_options.paths.map
            (fun m => m.map (fun kv => (kv.1, kv.2.map (substituteTemplateVariable dir))))
          paths_base := substituteTemplateVariable dir t.compiler_options.paths_base } }
  else t

/-- A sample root tsconfig with `${configDir}` at the head of its
`base_url`, a paths target and `paths_base`. -/
def tsSample : TsConfigT :=
  ⟨true, "/proj/tsconfig.json",
    ⟨some "${configDir}/src", some [("k", ["${configDir}/a"])], "${configDir}"⟩⟩

/-- Whether `pat` occurs as a contiguous run in `l`. -/
def hasInfix (pat : List Char) : List Char → Bool
  | [] => pat.isEmpty
  | c :: rest => pat.isPrefixOf (c :: rest) || hasInfix pat rest

/-- Whether `${configDir}` occurs anywhere in the string. -/
def containsTemplate (s : String) : Bool := hasInfix TEMPLATE_VARIABLE.toList s.toList

/-! ### Dependency recording by the cached-path probes
(`src/cache.rs` lines 193-211 and 305-377). -/

/-- `FileMetadata` from `file_system.rs`. -/
structure FileMetadata where
  is_file : Bool
  is_dir : Bool
  is_symlink : Bool
deriving DecidableEq

/-- Modelled from the spec: `context.rs` is not under `src/`.  The per-call
dependency lists of `ResolveContext` (spec section 3), as initialized by
`resolve_with_context`; `add_file_dependency` / `add_missing_dependency`
push onto them (pushed calls visible in `src/cache.rs`). -/
structure DepCtx where
  fileDeps : List String
  missingDeps : List String
deriving DecidableEq

/-- `ResolveContext::add_file_dependency` with initialized lists. -/
def addFileDependency (c : DepCtx) (p : String) : DepCtx :=
  { c with fileDeps := c.fileDeps ++ [p] }

/-- `ResolveContext::add_missing_dependency` with initialized lists. -/
def addMissingDependency (c : DepCtx) (p : String) : DepCtx :=
  { c with missingDeps := c.missingDeps ++ [p] }

/-- `CachedPathImpl::is_file` (`src/cache.rs` lines 193-201): `fs` is the
memoized metadata of the cache generation. -/
def isFileProbe (fs : String → Option FileMetadata) (p : String) (c : DepCtx) :
    Bool × DepCtx :=
  match fs p with
  | some meta => (meta.is_file, addFileDependency c p)
  | none => (false, addMissingDependency c p)

/-- `CachedPathImpl::is_dir` (`src/cache.rs` lines 203-211). -/
def isDirProbe (fs : String → Option FileMetadata) (p : String) (c : DepCtx) :
    Bool × DepCtx :=
  match fs p with
  | some meta => (meta.is_dir, c)
  | none => (false, addMissingDependency c p)

/-- Outcome of reading/parsing `dir/package.json` in
`CachedPathImpl::package_json`. -/
inductive PkgJsonOutcome where
  | found
  | notFound
  | parseError
deriving DecidableEq

/-- The dependency-recording tail of `CachedPathImpl::package_json`
(`src/cache.rs` lines 359-376): found and parse-error outcomes record a file
dependency on `dir/package.json`, a missing file records a missing
dependency. -/
def packageJsonProbe (pkg : String → PkgJsonOutcome) (d : String) (c : DepCtx) :
    PkgJsonOutcome × DepCtx :=
  let pjPath := pathJoin d "package.json"
  match pkg d with
  | .found => (.found, addFileDependency c pjPath)
  | .notFound => (.notFound, addMissingDependency c pjPath)
  | .parseError => (.parseError, addFileDependency c pjPath)

/-- The cache probes a resolution may perform that touch the dependency
lists (the only writers of the two lists in the source). -/
inductive CacheOp where
  | isFileOp (p : String)
  | isDirOp (p : String)
  | pkgJsonOp (d : String)

/-- Run one probe for its context effect. -/
def runOp (fs : String → Option FileMetadata) (pkg : String → PkgJsonOutcome)
    (c : DepCtx) : CacheOp → DepCtx
  | .isFileOp p => (isFileProbe fs p c).2
  | .isDirOp p => (isDirProbe fs p c).2
  | .pkgJsonOp d => (packageJsonProbe pkg d c).2

/-- Run a resolution's probe sequence, as drained into the public
`ResolveContext` by `resolve_with_context` (`src/lib.rs` lines 214-230). -/
def runOps (fs : String → Option FileMetadata) (pkg : String → PkgJsonOutcome)
    (ops : List CacheOp) (c : DepCtx) : DepCtx :=
  ops.foldl (runOp fs pkg) c

/-- The path whose metadata a probe queries. -/
def probedPath : CacheOp → String
  | .isFileOp p => p
  | .isDirOp p => p
  | .pkgJsonOp d => pathJoin d "package.json"

/-! ### Symlink realpath on cached-path nodes (`src/cache.rs` lines
213-241). -/

/-- The file-system facts `realpath` consults: `symlink_metadata(..)
.is_ok_and(|m| m.is_symlink)` and `canonicalize`. -/
structure SymlinkFs where
  isSymlink : List String → Bool
  canonical : List String → List String

/-- A cached-path node: the parent chain of `CachedPathImpl` (`parent` link
plus one trailing normal component per level). -/
inductive CPath where
  | nil : CPath
  | child (parent : CPath) (seg : String) : CPath

/-- The node's absolute path as its list of segments. -/
def CPath.toSegs : CPath → List String
  | .nil => []
  | .child par seg => par.toSegs ++ [seg]

/-- `CachedPathImpl::realpath` (`src/cache.rs` lines 213-241): a symlinked
node canonicalizes; otherwise the parent's realpath is extended with
`node.path.strip_prefix(parent.path)`; the parentless root returns its own
path. -/
def realpath (fs : SymlinkFs) : CPath → List String
  | .nil =>
    if fs.isSymlink CPath.nil.toSegs then fs.canonical CPath.nil.toSegs
    else CPath.nil.toSegs
  | .child par seg =>
    if fs.isSymlink (CPath.child par seg).toSegs then
      fs.canonical (CPath.child par seg).toSegs
    else realpath fs par ++ [seg]

/-- The node together with its ancestors, up to the root. -/
def CPath.chain : CPath → List CPath
  | .nil => [.nil]
  | .child par seg => CPath.child par seg :: par.chain

theorem containsStar_of_oneStar (s : String) (h : oneStar s) : containsStar s = true := by
  have hm : '*' ∈ s.toList := List.count_pos_iff.mp (by omega)
  simpa [containsStar, List.any_eq_true] using hm

theorem isEmpty_false_of_containsStar (s : String) (h : containsStar s = true) :
    s.isEmpty = false := by
  rw [Bool.eq_false_iff]
  intro he
  rw [String.isEmpty_iff] at he
  subst he
  exact absurd h (by decide)

/-- C1 counterexample: two distinct keys, each containing exactly one `*`,
for which `pattern_key_compare` returns `Equal` — it is not a strict total
order and does not produce exactly one of less-specific/more-specific for
every distinct pair. -/
theorem patternKeyCompare_eq_distinct_counterexample :
    patternKeyCompare "./a*b" "./x*y" = Ordering.eq
    ∧ ("./a*b" : String) ≠ "./x*y"
    ∧ oneStar "./a*b" ∧ oneStar "./x*y" :=
  ⟨by decide, by decide, by decide, by decide⟩

/-- C1 (amended): on keys each containing exactly one `*`,
`pattern_key_compare` is the total preorder ordering by longer base (prefix
up to and including `*`) first and longer overall key second; it returns
`Equal` exactly when both base length and overall length agree, which can
happen for distinct keys, and the no-`*` tiebreak never fires on this
domain. -/
theorem patternKeyCompare_total_preorder (a b : String) (ha : oneStar a) (hb : oneStar b) :
    (patternKeyCompare a b = .lt ↔
      baseLength b < baseLength a ∨ (baseLength a = baseLength b ∧ byteLen b < byteLen a))
    ∧ (patternKeyCompare a b = .gt ↔
      baseLength a < baseLength b ∨ (baseLength a = baseLength b ∧ byteLen a < byteLen b))
    ∧ (patternKeyCompare a b = .eq ↔
      (baseLength a = baseLength b ∧ byteLen a = byteLen b)) := by
  have hca := containsStar_of_oneStar a ha
  have hcb := containsStar_of_oneStar b hb
  have hea := isEmpty_false_of_containsStar a hca
  unfold patternKeyCompare
  split_ifs <;> simp_all <;> omega

theorem patternKeyCompare_total_preorder_witness :
    patternKeyCompare "./ab*" "./a*x" = Ordering.lt :=
  (patternKeyCompare_total_preorder "./ab*" "./a*x" (by decide) (by decide)).1.mpr (by decide)

/-- C9: with `builtin_modules` enabled, every specifier beginning with the
literal prefix `node:` fails with `Builtin` carrying the specifier
unchanged, for every builtin list (so also when the remainder names no real
builtin); a specifier that is a member of the builtin list without the
prefix fails with `Builtin` of the specifier with `node:` prepended. -/
theorem requireCore_builtin :
    (∀ (builtins : List String) (specifier : String),
      strStartsWith specifier "node:" = true →
      requireCore true builtins specifier = .error (.Builtin specifier))
    ∧ (∀ (builtins : List String) (specifier : String),
      strStartsWith specifier "node:" = false →
      builtins.contains specifier = true →
      requireCore true builtins specifier = .error (.Builtin ("node:" ++ specifier))) := by
  constructor
  · intro bs sp h
    simp [requireCore, h]
  · intro bs sp h hc
    have hm : sp ∈ bs := by simpa using hc
    simp [requireCore, h, hm]

theorem requireCore_builtin_witness :
    requireCore true ["fs"] "node:unreal-module" = .error (.Builtin "node:unreal-module")
    ∧ requireCore true ["fs"] "fs" = .error (.Builtin ("node:" ++ "fs")) :=
  ⟨requireCore_builtin.1 ["fs"] "node:unreal-module" (by decide),
   requireCore_builtin.2 ["fs"] "fs" (by decide) (by decide)⟩

theorem selectStep_not_gt (matchKey : String) (st : BestState) (kv : String × JSONValue)
    (h : patternKeyCompare st.bestKey kv.1 ≠ Ordering.gt) :
    selectStep matchKey st kv = st := by
  have hgt : orderingIsGt (patternKeyCompare st.bestKey kv.1) = false := by
    cases hc : patternKeyCompare st.bestKey kv.1 <;> simp [orderingIsGt]
    exact h hc
  unfold selectStep
  cases hsp : splitOnce kv.1 '*' with
  | none => simp [hsp, hgt]
  | some pr =>
    obtain ⟨pb, pt⟩ := pr
    simp [hsp, hgt]

theorem foldl_selectStep_fixed (matchKey : String) (st : BestState)
    (rest : List (String × JSONValue))
    (h : ∀ kv ∈ rest, patternKeyCompare st.bestKey kv.1 ≠ Ordering.gt) :
    rest.foldl (selectStep matchKey) st = st := by
  induction rest with
  | nil => rfl
  | cons kv tl ih =>
    rw [List.foldl_cons, selectStep_not_gt matchKey st kv (h kv (by simp))]
    exact ih (fun x hx => h x (by simp [hx]))

/-- C10: in the wildcard-key loop of PACKAGE_IMPORTS_EXPORTS_RESOLVE a
candidate only replaces the current best when `pattern_key_compare` orders
it strictly more specific, so later entries that are not strictly more
specific than the best key selected from the earlier entries — in
particular equally-specific (`Equal`) keys — never change the selection:
the earlier key in insertion order wins. -/
theorem selectBest_earlier_key_wins (matchKey : String)
    (pre rest : List (String × JSONValue))
    (h : ∀ kv ∈ rest, patternKeyCompare (selectBest matchKey pre).bestKey kv.1 ≠ Ordering.gt) :
    selectBest matchKey (pre ++ rest) = selectBest matchKey pre := by
  unfold selectBest at *
  rw [List.foldl_append]
  exact foldl_selectStep_fixed matchKey _ rest h

theorem selectBest_earlier_key_wins_witness :
    selectBest "./a/f" [("./a/*", JSONValue.str "t1"), ("./x/*", JSONValue.str "t2")]
      = selectBest "./a/f" [("./a/*", JSONValue.str "t1")] :=
  selectBest_earlier_key_wins "./a/f" [("./a/*", JSONValue.str "t1")]
    [("./x/*", JSONValue.str "t2")] (by decide)

/-- C3 counterexample: with alias `("x$", [/r1, /r2])` and both values
failing, the error is `MatchedAliasNotFound("x", "x")` — the key in the
payload has the trailing `$` stripped, not the raw key `"x$"` given by the
claim's source. -/
theorem matchedAliasNotFound_dollar_key_counterexample :
    loadAlias (fun _ => false) (fun _ _ => .error (.NotFound "!")) "/dir" "x"
      [("x$", [AliasValue.path "/r1", AliasValue.path "/r2"])]
      = .error (.MatchedAliasNotFound "x" "x")
    ∧ (Except.error (ResolveError.MatchedAliasNotFound "x" "x") :
        Except ResolveError (Option String))
      ≠ .error (.MatchedAliasNotFound "x" "x$") :=
  ⟨by decide, by decide⟩

/-- C3 (amended): once a value of a matched alias key has been attempted
(the value loop ends with `should_stop` set and no success), the whole
resolution fails with `MatchedAliasNotFound(specifier, key)` where `key` is
the matched alias key with a trailing `$` stripped; later alias keys are
never consulted (the result is the error for every continuation of the
alias list) and the engine does not fall through. -/
theorem matchedAliasNotFound_sticky (isFile : String → Bool)
    (require : String → String → Except ResolveError String)
    (cachedPath specifier aliasKeyRaw aliasKey : String) (values : List AliasValue)
    (rest : List (String × List AliasValue))
    (hk : aliasKeyMatch specifier aliasKeyRaw = some aliasKey)
    (hv : loadAliasValues isFile require cachedPath aliasKey specifier values false
      = (.ok none, true)) :
    loadAlias isFile require cachedPath specifier ((aliasKeyRaw, values) :: rest)
      = .error (.MatchedAliasNotFound specifier aliasKey) := by
  simp [loadAlias, hk, hv]

theorem matchedAliasNotFound_sticky_witness :
    loadAlias (fun _ => false) (fun _ _ => .error (.NotFound "!")) "/dir" "x"
      [("x$", [AliasValue.path "/r1"]), ("y", [AliasValue.path "/r3"])]
      = .error (.MatchedAliasNotFound "x" "x") :=
  matchedAliasNotFound_sticky (fun _ => false) (fun _ _ => .error (.NotFound "!"))
    "/dir" "x" "x$" "x" [AliasValue.path "/r1"] [("y", [AliasValue.path "/r3"])]
    (by decide) (by decide)

/-- C4: an `Ignored` failure of the primary dispatch is returned to the
caller unchanged and the fallback alias list is never consulted (the result
does not depend on it); the fallback runs exactly when the primary failure
is not `Ignored`; and in alias value retries only `NotFound` and
`MatchedAliasNotFound` make the next value be tried — every other error of
the recursive require, `Ignored` included, propagates. -/
theorem ignored_propagates_policy :
    (∀ (err : ResolveError) (fallback : Except ResolveError (Option String)),
      err.isIgnore = true →
      requireWithoutParse (.ok none) (.ok none) (.error err) fallback = .error err)
    ∧ (∀ (err : ResolveError) (fallback : Except ResolveError (Option String)),
      err.isIgnore = false →
      requireWithoutParse (.ok none) (.ok none) (.error err) fallback =
        (match fallback with
         | .error e => .error e
         | .ok (some p) => .ok p
         | .ok none => .error err))
    ∧ (∀ (isFile : String → Bool) (cachedPath aliasKey aliasValue request : String)
        (e : ResolveError),
      request ≠ aliasValue →
      ((dropPrefixS request aliasValue).map (strStartsWith · "/")).getD false = false →
      strIsEmpty (strDrop request (strLen aliasKey)) = true →
      loadAliasValue isFile (fun _ _ => .error e) cachedPath aliasKey aliasValue request false =
        (match e with
         | .NotFound _ => (.ok none, true)
         | .MatchedAliasNotFound _ _ => (.ok none, true)
         | _ => (.error e, true))) := by
  refine ⟨?_, ?_, ?_⟩
  · intro err fallback h
    simp [requireWithoutParse, h]
  · intro err fallback h
    simp [requireWithoutParse, h]
  · intro isFile cachedPath aliasKey aliasValue request e h1 h2 h3
    unfold loadAliasValue
    simp only [h1, h2, h3, ne_eq, not_false_iff, and_self, if_true, if_pos, ite_true]
    cases e <;> rfl

theorem ignored_propagates_policy_witness :
    requireWithoutParse (.ok none) (.ok none) (.error (.Ignored "/x")) (.ok (some "/y"))
      = .error (.Ignored "/x")
    ∧ requireWithoutParse (.ok none) (.ok none) (.error (.NotFound "m")) (.ok (some "/y"))
      = (match (Except.ok (some "/y") : Except ResolveError (Option String)) with
         | .error e => .error e
         | .ok (some p) => .ok p
         | .ok none => .error (.NotFound "m"))
    ∧ loadAliasValue (fun _ => false) (fun _ _ => .error (.Ignored "/z")) "/d" "x" "/r" "x" false
      = (match (ResolveError.Ignored "/z") with
         | .NotFound _ => (.ok none, true)
         | .MatchedAliasNotFound _ _ => (.ok none, true)
         | _ => (.error (.Ignored "/z"), true)) :=
  ⟨ignored_propagates_policy.1 (.Ignored "/x") (.ok (some "/y")) (by decide),
   ignored_propagates_policy.2.1 (.NotFound "m") (.ok (some "/y")) (by decide),
   ignored_propagates_policy.2.2 (fun _ => false) "/d" "x" "/r" "x" (.Ignored "/z")
     (by decide) (by decide) (by decide)⟩

/-- C5 counterexample: building a root tsconfig whose paths target contains
`${configDir}` in the middle leaves the occurrence unsubstituted. -/
theorem configDir_midstring_counterexample :
    (TsConfigT.build ⟨true, "/proj/tsconfig.json",
        ⟨none, some [("k", ["a/${configDir}/b"])], "/proj"⟩⟩).compiler_options.paths
      = some [("k", ["a/${configDir}/b"])]
    ∧ containsTemplate "a/${configDir}/b" = true :=
  ⟨by decide, by decide⟩

/-- C5 (amended): after the root tsconfig is built, each paths target,
`paths_base` and `base_url` has `substitute_template_variable` applied,
which replaces only a leading occurrence of `${configDir}` (plus an
optional following `/`) with the root tsconfig's directory; strings that do
not begin with `${configDir}` are left unchanged. -/
theorem build_substitutes_leading_configDir (t : TsConfigT) (h : t.root = true) :
    ((TsConfigT.build t).compiler_options.paths
        = t.compiler_options.paths.map
            (fun m => m.map
              (fun kv => (kv.1, kv.2.map (substituteTemplateVariable t.directory)))))
    ∧ ((TsConfigT.build t).compiler_options.paths_base
        = substituteTemplateVariable t.directory t.compiler_options.paths_base)
    ∧ ((TsConfigT.build t).compiler_options.base_url
        = t.compiler_options.base_url.map (substituteTemplateVariable t.directory))
    ∧ (∀ directory p, strStartsWith p TEMPLATE_VARIABLE = false →
        substituteTemplateVariable directory p = p) := by
  refine ⟨?_, ?_, ?_, ?_⟩
  · simp [TsConfigT.build, h]
  · simp [TsConfigT.build, h]
  · simp [TsConfigT.build, h]
  · intro d p hp
    simp [substituteTemplateVariable, hp]

theorem build_substitutes_leading_configDir_witness :
    (TsConfigT.build tsSample).compiler_options.paths_base
      = substituteTemplateVariable tsSample.directory tsSample.compiler_options.paths_base :=
  (build_substitutes_leading_configDir tsSample rfl).2.1

/-- C6 counterexample: a resolution whose only probe is `is_dir` on an
existing directory records nothing — the existing stat'd path `/a` is
missing from `file_dependencies`, so the set does not contain *exactly* the
stat'd-and-existing paths. -/
theorem isDir_existing_unrecorded_counterexample :
    runOps (fun p => if p = "/a" then some ⟨false, true, false⟩ else none)
        (fun _ => PkgJsonOutcome.notFound) [CacheOp.isDirOp "/a"] ⟨[], []⟩
      = ⟨[], []⟩
    ∧ (fun p => if p = "/a" then some (⟨false, true, false⟩ : FileMetadata) else none) "/a"
      ≠ none :=
  ⟨by decide, by decide⟩

theorem runOps_fileDeps_sub (fs : String → Option FileMetadata)
    (pkg : String → PkgJsonOutcome)
    (hcoh : ∀ d, pkg d = .notFound ↔ fs (pathJoin d "package.json") = none) :
    ∀ (ops : List CacheOp) (c : DepCtx) (p : String),
      p ∈ (runOps fs pkg ops c).fileDeps → p ∈ c.fileDeps ∨ (fs p).isSome = true := by
  intro ops
  induction ops with
  | nil => intro c p hp; exact Or.inl hp
  | cons op ops ih =>
    intro c p hp
    rcases ih (runOp fs pkg c op) p hp with hmem | hs
    · cases op with
      | isFileOp q =>
        cases hq : fs q with
        | some m =>
          simp [runOp, isFileProbe, hq, addFileDependency] at hmem
          rcases hmem with h | h
          · exact Or.inl h
          · subst h; exact Or.inr (by simp [hq])
        | none =>
          simp [runOp, isFileProbe, hq, addMissingDependency] at hmem
          exact Or.inl hmem
      | isDirOp q =>
        cases hq : fs q with
        | some m =>
          simp [runOp, isDirProbe, hq] at hmem
          exact Or.inl hmem
        | none =>
          simp [runOp, isDirProbe, hq, addMissingDependency] at hmem
          exact Or.inl hmem
      | pkgJsonOp d =>
        cases hq : pkg d with
        | found =>
          simp [runOp, packageJsonProbe, hq, addFileDependency] at hmem
          rcases hmem with h | h
          · exact Or.inl h
          · subst h
            have hne : fs (pathJoin d "package.json") ≠ none := by
              intro hn
              have := (hcoh d).mpr hn
              rw [hq] at this
              cases this
            exact Or.inr (Option.isSome_iff_ne_none.mpr hne)
        | notFound =>
          simp [runOp, packageJsonProbe, hq, addMissingDependency] at hmem
          exact Or.inl hmem
        | parseError =>
          simp [runOp, packageJsonProbe, hq, addFileDependency] at hmem
          rcases hmem with h | h
          · exact Or.inl h
          · subst h
            have hne : fs (pathJoin d "package.json") ≠ none := by
              intro hn
              have := (hcoh d).mpr hn
              rw [hq] at this
              cases this
            exact Or.inr (Option.isSome_iff_ne_none.mpr hne)
    · exact Or.inr hs

theorem runOps_missingDeps_iff (fs : String → Option FileMetadata)
    (pkg : String → PkgJsonOutcome)
    (hcoh : ∀ d, pkg d = .notFound ↔ fs (pathJoin d "package.json") = none) :
    ∀ (ops : List CacheOp) (c : DepCtx) (p : String),
      p ∈ (runOps fs pkg ops c).missingDeps ↔
        p ∈ c.missingDeps ∨ (p ∈ ops.map probedPath ∧ fs p = none) := by
  intro ops
  induction ops with
  | nil => intro c p; simp [runOps]
  | cons op ops ih =>
    intro c p
    have hstep : p ∈ (runOp fs pkg c op).missingDeps ↔
        p ∈ c.missingDeps ∨ (p = probedPath op ∧ fs p = none) := by
      cases op with
      | isFileOp q =>
        cases hq : fs q with
        | some m =>
          simp only [runOp, isFileProbe, hq, addFileDependency, probedPath]
          constructor
          · exact Or.inl
          · rintro (h | ⟨rfl, hn⟩)
            · exact h
            · exact absurd hn (by simp [hq])
        | none =>
          simp only [runOp, isFileProbe, hq, addMissingDependency, probedPath,
            List.mem_append, List.mem_singleton]
          constructor
          · rintro (h | rfl)
            · exact Or.inl h
            · exact Or.inr ⟨rfl, hq⟩
          · rintro (h | ⟨rfl, hn⟩)
            · exact Or.inl h
            · exact Or.inr rfl
      | isDirOp q =>
        cases hq : fs q with
        | some m =>
          simp only [runOp, isDirProbe, hq, probedPath]
          constructor
          · exact Or.inl
          · rintro (h | ⟨rfl, hn⟩)
            · exact h
            · exact absurd hn (by simp [hq])
        | none =>
          simp only [runOp, isDirProbe, hq, addMissingDependency, probedPath,
            List.mem_append, List.mem_singleton]
          constructor
          · rintro (h | rfl)
            · exact Or.inl h
            · exact Or.inr ⟨rfl, hq⟩
          · rintro (h | ⟨rfl, hn⟩)
            · exact Or.inl h
            · exact Or.inr rfl
      | pkgJsonOp d =>
        cases hq : pkg d with
        | found =>
          simp only [runOp, packageJsonProbe, hq, addFileDependency, probedPath]
          constructor
          · exact Or.inl
          · rintro (h | ⟨rfl, hn⟩)
            · exact h
            · have := (hcoh d).mpr hn
              rw [hq] at this
              cases this
        | notFound =>
          simp only [runOp, packageJsonProbe, hq, addMissingDependency, probedPath,
            List.mem_append, List.mem_singleton]
          constructor
          · rintro (h | rfl)
            · exact Or.inl h
            · exact Or.inr ⟨rfl, (hcoh d).mp hq⟩
          · rintro (h | ⟨rfl, hn⟩)
            · exact Or.inl h
            · exact Or.inr rfl
        | parseError =>
          simp only [runOp, packageJsonProbe, hq, addFileDependency, probedPath]
          constructor
          · exact Or.inl
          · rintro (h | ⟨rfl, hn⟩)
            · exact h
            · have := (hcoh d).mpr hn
              rw [hq] at this
              cases this
    have hrw : runOps fs pkg (op :: ops) c = runOps fs pkg ops (runOp fs pkg c op) := rfl
    rw [hrw, ih, hstep]
    simp only [List.map_cons, List.mem_cons]
    tauto

/-- C6 (amended): over any sequence of metadata probes that touch the
dependency lists, starting from the empty per-call context,
`file_dependencies` contains only paths whose metadata was queried and that
existed (not all of them: `is_dir` on an existing directory records
nothing), `missing_dependencies` contains exactly the probed paths that did
not exist, and the two lists are disjoint. -/
theorem deps_sound_and_missing_exact (fs : String → Option FileMetadata)
    (pkg : String → PkgJsonOutcome) (ops : List CacheOp)
    (hcoh : ∀ d, pkg d = .notFound ↔ fs (pathJoin d "package.json") = none) :
    (∀ p, p ∈ (runOps fs pkg ops ⟨[], []⟩).fileDeps → (fs p).isSome = true)
    ∧ (∀ p, p ∈ (runOps fs pkg ops ⟨[], []⟩).missingDeps ↔
        (p ∈ ops.map probedPath ∧ fs p = none))
    ∧ (∀ p, p ∈ (runOps fs pkg ops ⟨[], []⟩).fileDeps →
        p ∉ (runOps fs pkg ops ⟨[], []⟩).missingDeps) := by
  have hfile : ∀ p, p ∈ (runOps fs pkg ops ⟨[], []⟩).fileDeps → (fs p).isSome = true := by
    intro p hp
    rcases runOps_fileDeps_sub fs pkg hcoh ops ⟨[], []⟩ p hp with h | h
    · simp at h
    · exact h
  have hmiss : ∀ p, p ∈ (runOps fs pkg ops ⟨[], []⟩).missingDeps ↔
      (p ∈ ops.map probedPath ∧ fs p = none) := by
    intro p
    rw [runOps_missingDeps_iff fs pkg hcoh ops ⟨[], []⟩ p]
    simp
  refine ⟨hfile, hmiss, ?_⟩
  intro p hf hm
  have h1 := hfile p hf
  have h2 := (hmiss p).mp hm
  rw [h2.2] at h1
  cases h1

theorem deps_sound_and_missing_exact_witness :
    ("/m" ∈ (runOps (fun _ => none) (fun _ => PkgJsonOutcome.notFound)
        [CacheOp.isFileOp "/m"] ⟨[], []⟩).missingDeps)
      ↔ ("/m" ∈ [CacheOp.isFileOp "/m"].map probedPath ∧
          (fun _ => (none : Option FileMetadata)) "/m" = none) :=
  (deps_sound_and_missing_exact (fun _ => none) (fun _ => PkgJsonOutcome.notFound)
    [CacheOp.isFileOp "/m"] (fun d => by simp)).2.1 "/m"

/-- C8: if neither the node's path nor any ancestor is a symlink, `realpath`
returns the node's path unchanged; a symlinked node delegates to the file
system's `canonicalize`; otherwise the result is the parent's realpath
extended with the path suffix `node.path` minus `parent.path`. -/
theorem realpath_spec :
    (∀ (fs : SymlinkFs) (n : CPath),
      (∀ m ∈ n.chain, fs.isSymlink m.toSegs = false) → realpath fs n = n.toSegs)
    ∧ (∀ (fs : SymlinkFs) (n : CPath), fs.isSymlink n.toSegs = true →
      realpath fs n = fs.canonical n.toSegs)
    ∧ (∀ (fs : SymlinkFs) (par : CPath) (seg : String),
      fs.isSymlink (CPath.child par seg).toSegs = false →
      realpath fs (CPath.child par seg) = realpath fs par ++ [seg]) := by
  refine ⟨?_, ?_, ?_⟩
  · intro fs n
    induction n with
    | nil =>
      intro h
      have h0 := h .nil (by simp [CPath.chain])
      simp [realpath, h0]
    | child par seg ih =>
      intro h
      have hh := h (CPath.child par seg) (by simp [CPath.chain])
      have hpar := ih (fun m hm => h m (by simp [CPath.chain]; exact Or.inr hm))
      have hh2 : fs.isSymlink (par.toSegs ++ [seg]) = false := by
        simpa [CPath.toSegs] using hh
      simp [realpath, hh2, hpar, CPath.toSegs]
  · intro fs n h
    cases n <;> simp [realpath, h]
  · intro fs par seg h
    simp [realpath, h]

theorem realpath_spec_witness :
    realpath ⟨fun _ => false, fun l => l⟩ (CPath.child (CPath.child .nil "a") "b")
      = (CPath.child (CPath.child .nil "a") "b").toSegs
    ∧ realpath ⟨fun l => l == ["s"], fun _ => ["c"]⟩ (CPath.child .nil "s")
      = SymlinkFs.canonical ⟨fun l => l == ["s"], fun _ => ["c"]⟩
          (CPath.child .nil "s").toSegs
    ∧ realpath ⟨fun l => l == ["s"], fun _ => ["c"]⟩ (CPath.child CPath.nil "b")
      = realpath ⟨fun l => l == ["s"], fun _ => ["c"]⟩ CPath.nil ++ ["b"] :=
  ⟨realpath_spec.1 ⟨fun _ => false, fun l => l⟩ (CPath.child (CPath.child .nil "a") "b")
      (by decide),
   realpath_spec.2.1 ⟨fun l => l == ["s"], fun _ => ["c"]⟩ (CPath.child .nil "s") (by decide),
   realpath_spec.2.2 ⟨fun l => l == ["s"], fun _ => ["c"]⟩ CPath.nil "b" (by decide)⟩

/-- C7 counterexample: PACKAGE_EXPORTS_RESOLVE invoked with subpath `.` and
a query set does not fail with `PackagePathNotExported` when the exports
object mixes dotted and undotted keys — the `InvalidPackageConfig` check
runs first. -/
theorem mainExport_query_mixed_keys_counterexample :
    packageExportsResolve (fun _ _ => .ok none) "/p" "."
        (.obj [("./a", .str "./x"), ("b", .str "./y")]) [] (some "?q") none
      = .error (.InvalidPackageConfig (pathJoin "/p" "package.json"))
    ∧ (Except.error (ResolveError.InvalidPackageConfig (pathJoin "/p" "package.json")) :
        Except ResolveError (Option String))
      ≠ .error (.PackagePathNotExported ("./" ++ "?q") (pathJoin "/p" "package.json")) :=
  ⟨by decide, by decide⟩

/-- C7 (amended): whenever PACKAGE_EXPORTS_RESOLVE is invoked with subpath
`.` and a non-empty query or fragment, and the exports value does not
trigger the earlier mixed-keys `InvalidPackageConfig` validation, it fails
with `PackagePathNotExported` naming the package's `package.json`,
regardless of what the exports value would map `.` to. -/
theorem mainExport_query_fragment_rejected
    (pkgResolve : String → String → Except ResolveError (Option String))
    (packageUrl : String) (exports : JSONValue) (conditions : List String)
    (query fragment : Option String)
    (hq : query.isSome = true ∨ fragment.isSome = true)
    (hm : mixedKeysOf exports = false) :
    packageExportsResolve pkgResolve packageUrl "." exports conditions query fragment
      = .error (.PackagePathNotExported
          ("./" ++ trimLeadingDots "." ++ query.getD "" ++ fragment.getD "")
          (pathJoin packageUrl "package.json")) := by
  rcases hq with h | h <;> simp [packageExportsResolve, hm, h]

theorem mainExport_query_fragment_rejected_witness :
    packageExportsResolve (fun _ _ => .ok none) "/p" "." (.str "./m.js") [] (some "?q") none
      = .error (.PackagePathNotExported
          ("./" ++ trimLeadingDots "." ++ (some "?q").getD "" ++ (none : Option String).getD "")
          (pathJoin "/p" "package.json")) :=
  mainExport_query_fragment_rejected (fun _ _ => .ok none) "/p" (.str "./m.js") []
    (some "?q") none (Or.inl rfl) (by decide)

/-- C2 (code bug): a single-entry exports array whose entry alone fails with
`InvalidPackageTarget` resolves to `Ok(None)` — the loop guard
`resolved.is_err() && i == targets.len()` can never hold because `i` ranges
over `0..len`, so the last entry's error is silently discarded instead of
propagating as the source's own step comment (and the claim) require. -/
theorem arrayTarget_last_error_swallowed :
    packageTargetResolve (fun _ _ => .ok none) "/p" [] "." (.str "/a") none false
      = .error (.InvalidPackageTarget "/a" "." (pathJoin "/p" "package.json"))
    ∧ packageTargetResolve (fun _ _ => .ok none) "/p" [] "." (.arr [.str "/a"]) none false
      = .ok none := by
  constructor
  · rw [packageTargetResolve]
    simp +decide [strStartsWith]
  · simp +decide [packageTargetResolve.eq_def, packageTargetResolveArr.eq_def,
      strStartsWith, exceptIsErr]
